import Mathlib

set_option maxRecDepth 4096

/-!
Shallow embedding of the SyncBeat server's session / playback-sync core
(`server/index.js`).  JS `Date.now()` values, generated uuids and random
room codes are passed in as explicit parameters; JS `Map`s become
association lists with `Map.set` / `Map.delete` iteration-order semantics;
JS numbers holding millisecond times and positions become `Int`.
-/

/-- A playable track as the server sees it (`data.track`): only the fields
the server logic reads are modelled (`id`, `duration`). -/
structure Track where
  id : String
  duration : Int
deriving Repr, DecidableEq

/-- `Room.playbackState` snapshot. -/
structure PlaybackState where
  isPlaying : Bool
  position : Int
  timestamp : Int
  trackId : Option String
deriving Repr, DecidableEq

/-- A member entry in `Room.users` (socketId duplicates id in the code). -/
structure User where
  id : String
  name : String
  socketId : String
  joinedAt : Int
  isOnline : Bool
  lastSeen : Int
deriving Repr, DecidableEq

/-- The payload a caller hands to `Room.addMessage` (spread into the stored
message object). -/
structure MessagePayload where
  userId : String
  userName : String
  message : String
  type : String
deriving Repr, DecidableEq

/-- A stored chat message: payload plus generated id, timestamp, delivered. -/
structure ChatMessage where
  id : String
  userId : String
  userName : String
  message : String
  type : String
  timestamp : Int
  delivered : Bool
deriving Repr, DecidableEq

/-- The `Room` class state. -/
structure Room where
  id : String
  hostId : String
  hostName : String
  users : List User
  messages : List ChatMessage
  currentTrack : Option Track
  isPlaying : Bool
  position : Int
  lastUpdateTime : Int
  createdAt : Int
  playbackState : PlaybackState
  typingUsers : List String
deriving Repr, DecidableEq

/-- `new Room(id, hostId, hostName)` with `Date.now()` passed as `now`. -/
def newRoom (id hostId hostName : String) (now : Int) : Room :=
  { id := id
    hostId := hostId
    hostName := hostName
    users := []
    messages := []
    currentTrack := none
    isPlaying := false
    position := 0
    lastUpdateTime := now
    createdAt := now
    playbackState := { isPlaying := false, position := 0, timestamp := now, trackId := none }
    typingUsers := [] }

/-- JS `Map.set` on a keyed user list: replace in place if the key exists
(keeping its position), else append. -/
def setUser : List User → User → List User
  | [], u => [u]
  | v :: rest, u => if v.id = u.id then u :: rest else v :: setUser rest u

/-- `Room.addUser(userId, userName, socketId)` (socketId = userId at every
call site), with `Date.now()` as `now`. -/
def Room.addUser (r : Room) (userId userName : String) (now : Int) : Room :=
  let u : User :=
    { id := userId, name := userName, socketId := userId
      joinedAt := now, isOnline := true, lastSeen := now }
  { r with users := setUser r.users u }

/-- `Room.removeUser(userId)`. -/
def Room.removeUser (r : Room) (userId : String) : Room :=
  { r with
    users := r.users.filter (fun u => ¬ u.id = userId)
    typingUsers := r.typingUsers.filter (fun t => ¬ t = userId) }

/-- The suffix of the last `n` elements, JS `slice(-n)` for nonempty `n`. -/
def lastN (n : Nat) (l : List α) : List α := l.drop (l.length - n)

/-- The message object `Room.addMessage` builds from its argument, the
generated uuid and `Date.now()`. -/
def wrapMessage (p : MessagePayload) (msgId : String) (now : Int) : ChatMessage :=
  { id := msgId, userId := p.userId, userName := p.userName
    message := p.message, type := p.type, timestamp := now, delivered := true }

/-- `Room.addMessage(message)`: append, then keep only the last 100. -/
def Room.addMessage (r : Room) (p : MessagePayload) (msgId : String) (now : Int) :
    Room × ChatMessage :=
  let m := wrapMessage p msgId now
  let msgs := r.messages ++ [m]
  let msgs := if msgs.length > 100 then lastN 100 msgs else msgs
  ({ r with messages := msgs }, m)

/-- JS `trackData?.id || null`: `null` for a missing track, and the empty
string id is falsy so it also maps to `null`. -/
def jsTrackIdOpt : Option Track → Option String
  | none => none
  | some t => if t.id = "" then none else some t.id

/-- `Room.updateTrack(trackData, timestamp)`. -/
def Room.updateTrack (r : Room) (trackData : Option Track) (timestamp : Int) : Room :=
  { r with
    currentTrack := trackData
    playbackState := { r.playbackState with
                        trackId := jsTrackIdOpt trackData
                        timestamp := timestamp }
    lastUpdateTime := timestamp }

/-- `Room.updatePlaybackState(isPlaying, position, timestamp)`. -/
def Room.updatePlaybackState (r : Room) (isPlaying : Bool) (position : Int)
    (timestamp : Int) : Room :=
  { r with
    playbackState := { isPlaying := isPlaying, position := position
                       timestamp := timestamp, trackId := jsTrackIdOpt r.currentTrack }
    isPlaying := isPlaying
    position := position
    lastUpdateTime := timestamp }

/-- `Room.setUserTyping(userId, isTyping)`: Set add / delete. -/
def Room.setUserTyping (r : Room) (userId : String) (isTyping : Bool) : Room :=
  { r with typingUsers :=
      if isTyping then
        if userId ∈ r.typingUsers then r.typingUsers else r.typingUsers ++ [userId]
      else r.typingUsers.filter (fun t => ¬ t = userId) }

/-- The full-state projection of `Room.getCurrentState()` (only the fields
the claims mention are kept distinct: the message slice and member count). -/
structure RoomSnapshot where
  id : String
  hostId : String
  hostName : String
  users : List User
  messages : List ChatMessage
  currentTrack : Option Track
  playbackState : PlaybackState
  isPlaying : Bool
  position : Int
  lastUpdateTime : Int
  typingUsers : List String
  memberCount : Nat
deriving Repr, DecidableEq

/-- `Room.getCurrentState()`: note `messages.slice(-50)`. -/
def Room.getCurrentState (r : Room) : RoomSnapshot :=
  { id := r.id, hostId := r.hostId, hostName := r.hostName
    users := r.users, messages := lastN 50 r.messages
    currentTrack := r.currentTrack, playbackState := r.playbackState
    isPlaying := r.isPlaying, position := r.position
    lastUpdateTime := r.lastUpdateTime, typingUsers := r.typingUsers
    memberCount := r.users.length }

/-- The object `Room.getPlaybackSync()` returns. -/
structure PlaybackSyncResponse where
  isPlaying : Bool
  position : Int
  timestamp : Int
  trackId : Option String
  calculatedPosition : Int
  serverTimestamp : Int
deriving Repr, DecidableEq

/-- `Room.getPlaybackSync()` with `Date.now()` as `now`: signed elapsed time
is added to the stored position when playing with a current track, clamped
above by the track duration (`Math.min`), with no lower clamp. -/
def Room.getPlaybackSync (r : Room) (now : Int) : PlaybackSyncResponse :=
  let timeDiff := now - r.playbackState.timestamp
  let calcPos :=
    match r.currentTrack with
    | some t =>
        if r.playbackState.isPlaying then
          min (r.playbackState.position + timeDiff) t.duration
        else r.playbackState.position
    | none => r.playbackState.position
  { isPlaying := r.playbackState.isPlaying
    position := r.playbackState.position
    timestamp := r.playbackState.timestamp
    trackId := r.playbackState.trackId
    calculatedPosition := calcPos
    serverTimestamp := now }

/-! ## Server state and event handlers -/

/-- One `userSessions` entry. -/
structure Binding where
  userId : String
  userName : String
  roomId : String
  joinedAt : Int
  lastPing : Int
deriving Repr, DecidableEq

/-- The process-wide mutable maps `rooms` and `userSessions`. -/
structure ServerState where
  rooms : List (String × Room)
  userSessions : List (String × Binding)
deriving Repr, DecidableEq

/-- The empty server state at process start. -/
def initialState : ServerState := { rooms := [], userSessions := [] }

/-- JS `Map.get`. -/
def lookupA : List (String × α) → String → Option α
  | [], _ => none
  | p :: rest, k => if p.1 = k then some p.2 else lookupA rest k

/-- JS `Map.set`: replace in place keeping position, else append. -/
def setA : List (String × α) → String → α → List (String × α)
  | [], k, v => [(k, v)]
  | p :: rest, k, v => if p.1 = k then (k, v) :: rest else p :: setA rest k v

/-- JS `Map.delete` (keys are unique in every reachable map). -/
def delA : List (String × α) → String → List (String × α)
  | [], _ => []
  | p :: rest, k => if p.1 = k then delA rest k else p :: delA rest k

/-- A socket.io emission: to the sender (`socket.emit`), to the room minus
the sender (`socket.to(roomId).emit`) or to the whole room
(`io.to(roomId).emit`); tagged by event name. -/
inductive Emit where
  | toSender (event : String)
  | toOthers (roomId : String) (event : String)
  | toRoom (roomId : String) (event : String)
deriving Repr, DecidableEq

/-- `validateRoomData`: the userName is a string of 1–50 characters. -/
def validateRoomData (userName : String) : Bool :=
  1 ≤ userName.length ∧ userName.length ≤ 50

/-- `validateJoinData`: roomId a 6-character string, userName 1–50. -/
def validateJoinData (roomId userName : String) : Bool :=
  1 ≤ userName.length ∧ userName.length ≤ 50 ∧ roomId.length = 6

/-- `validateMessage`: 1–1000 characters. -/
def validateMessage (message : String) : Bool :=
  1 ≤ message.length ∧ message.length ≤ 1000

/-- Whitespace trimming on the character list (JS `String.trim`). -/
def jsTrim (l : List Char) : List Char :=
  ((l.dropWhile Char.isWhitespace).reverse.dropWhile Char.isWhitespace).reverse

/-- JS `toUpperCase`, character by character. -/
def jsToUpper (s : String) : String := String.mk (s.data.map Char.toUpper)

/-- `sanitizeString`: trim then truncate to 1000 characters. -/
def sanitizeString (s : String) : String := String.mk ((jsTrim s.data).take 1000)

/-- The `create-room` handler.  The random 6-char code
(`Math.random().toString(36).substr(2,6).toUpperCase()`) is passed in as
`roomId`; note the handler stores via `rooms.set` with no collision check. -/
def handleCreateRoom (st : ServerState) (sid userNameRaw roomId : String)
    (now : Int) : ServerState × List Emit :=
  if ¬ validateRoomData userNameRaw then (st, [.toSender "room-error"])
  else
    let userName := sanitizeString userNameRaw
    let room := (newRoom roomId sid userName now).addUser sid userName now
    let b : Binding :=
      { userId := sid, userName := userName, roomId := roomId
        joinedAt := now, lastPing := now }
    ({ rooms := setA st.rooms roomId room
       userSessions := setA st.userSessions sid b },
     [.toSender "room-created"])

/-- The `join-room` handler. -/
def handleJoinRoom (st : ServerState) (sid userNameRaw roomIdRaw : String)
    (now : Int) : ServerState × List Emit :=
  if ¬ validateJoinData roomIdRaw userNameRaw then (st, [.toSender "room-error"])
  else
    let roomId := jsToUpper roomIdRaw
    let userName := sanitizeString userNameRaw
    match lookupA st.rooms roomId with
    | none => (st, [.toSender "room-error"])
    | some room =>
      if room.users.length ≥ 10 then (st, [.toSender "room-error"])
      else
        let room := room.addUser sid userName now
        let b : Binding :=
          { userId := sid, userName := userName, roomId := roomId
            joinedAt := now, lastPing := now }
        ({ rooms := setA st.rooms roomId room
           userSessions := setA st.userSessions sid b },
         [.toSender "room-joined", .toOthers roomId "user-joined",
          .toSender "playback-sync"])

/-- The `send-message` handler (generated uuid and `Date.now()` passed in). -/
def handleSendMessage (st : ServerState) (sid messageRaw msgType msgId : String)
    (now : Int) : ServerState × List Emit :=
  if ¬ validateMessage messageRaw then (st, [.toSender "message-error"])
  else
    match lookupA st.userSessions sid with
    | none => (st, [.toSender "message-error"])
    | some session =>
      match lookupA st.rooms session.roomId with
      | none => (st, [.toSender "message-error"])
      | some room =>
        match room.users.find? (fun u => u.id = sid) with
        | none => (st, [.toSender "message-error"])
        | some user =>
          let room := room.setUserTyping sid false
          let p : MessagePayload :=
            { userId := sid, userName := user.name
              message := sanitizeString messageRaw, type := msgType }
          let room := (room.addMessage p msgId now).1
          ({ st with rooms := setA st.rooms session.roomId room },
           [.toRoom session.roomId "user-typing",
            .toRoom session.roomId "new-message"])

/-- The `typing-start` / `typing-stop` handlers (`isTyping` selects which). -/
def handleTyping (st : ServerState) (sid : String) (isTyping : Bool) :
    ServerState × List Emit :=
  match lookupA st.userSessions sid with
  | none => (st, [])
  | some session =>
    match lookupA st.rooms session.roomId with
    | none => (st, [])
    | some room =>
      ({ st with rooms := setA st.rooms session.roomId
                   (room.setUserTyping sid isTyping) },
       [.toOthers session.roomId "user-typing"])

/-- The `track-update` handler: note the bare `return` (no emission at all)
when the socket has no `userSessions` binding. -/
def handleTrackUpdate (st : ServerState) (sid : String) (track : Option Track)
    (now : Int) : ServerState × List Emit :=
  match lookupA st.userSessions sid with
  | none => (st, [])
  | some session =>
    match lookupA st.rooms session.roomId with
    | none => (st, [.toSender "action-error"])
    | some room =>
      if ¬ room.hostId = sid then (st, [.toSender "action-error"])
      else
        ({ st with rooms := setA st.rooms session.roomId
                     (room.updateTrack track now) },
         [.toOthers session.roomId "track-changed"])

/-- The `playback-state` handler. -/
def handlePlaybackState (st : ServerState) (sid : String) (isPlaying : Bool)
    (position : Int) (now : Int) : ServerState × List Emit :=
  match lookupA st.userSessions sid with
  | none => (st, [])
  | some session =>
    match lookupA st.rooms session.roomId with
    | none => (st, [.toSender "action-error"])
    | some room =>
      if ¬ room.hostId = sid then (st, [.toSender "action-error"])
      else
        ({ st with rooms := setA st.rooms session.roomId
                     (room.updatePlaybackState isPlaying position now) },
         [.toOthers session.roomId "playback-sync"])

/-- The `request-sync` handler (reply to sender only, no mutation). -/
def handleRequestSync (st : ServerState) (sid : String) :
    ServerState × List Emit :=
  match lookupA st.userSessions sid with
  | none => (st, [])
  | some session =>
    match lookupA st.rooms session.roomId with
    | none => (st, [])
    | some _ => (st, [.toSender "playback-sync"])

/-- The `disconnect` handler: remove the member, destroy the room if now
empty, otherwise transfer host to `Array.from(room.users.values())[0]`
when the host left; finally drop the binding. -/
def handleDisconnect (st : ServerState) (sid : String) :
    ServerState × List Emit :=
  match lookupA st.userSessions sid with
  | none => (st, [])
  | some session =>
    match lookupA st.rooms session.roomId with
    | none =>
      ({ st with userSessions := delA st.userSessions sid }, [])
    | some room =>
      if (room.removeUser sid).users.length = 0 then
        ({ rooms := delA st.rooms session.roomId
           userSessions := delA st.userSessions sid }, [])
      else if (room.removeUser sid).hostId = sid then
        match (room.removeUser sid).users.head? with
        | some newHost =>
          ({ rooms := setA st.rooms session.roomId ({ room.removeUser sid with hostId := newHost.id, hostName := newHost.name })
             userSessions := delA st.userSessions sid },
           [.toRoom session.roomId "host-changed",
            .toOthers session.roomId "user-left"])
        | none =>
          ({ st with userSessions := delA st.userSessions sid }, [])
      else
        ({ rooms := setA st.rooms session.roomId (room.removeUser sid)
           userSessions := delA st.userSessions sid },
         [.toOthers session.roomId "user-left"])

/-- Reachable server states: the initial empty state, closed under every
socket event handler with arbitrary inputs. -/
inductive Reachable : ServerState → Prop where
  | init : Reachable initialState
  | create (st : ServerState) (sid userName roomId : String) (now : Int) :
      Reachable st → Reachable (handleCreateRoom st sid userName roomId now).1
  | join (st : ServerState) (sid userName roomId : String) (now : Int) :
      Reachable st → Reachable (handleJoinRoom st sid userName roomId now).1
  | message (st : ServerState) (sid msg msgType msgId : String) (now : Int) :
      Reachable st → Reachable (handleSendMessage st sid msg msgType msgId now).1
  | typing (st : ServerState) (sid : String) (isTyping : Bool) :
      Reachable st → Reachable (handleTyping st sid isTyping).1
  | track (st : ServerState) (sid : String) (track : Option Track) (now : Int) :
      Reachable st → Reachable (handleTrackUpdate st sid track now).1
  | playback (st : ServerState) (sid : String) (isPlaying : Bool)
      (position now : Int) :
      Reachable st → Reachable (handlePlaybackState st sid isPlaying position now).1
  | sync (st : ServerState) (sid : String) :
      Reachable st → Reachable (handleRequestSync st sid).1
  | disconnect (st : ServerState) (sid : String) :
      Reachable st → Reachable (handleDisconnect st sid).1

/-! ## Derived predicates and concrete fixtures -/

/-- Well-formedness of one stored room: member ids are distinct, membership
is nonempty, and the host id is a member key. -/
def RoomWF (r : Room) : Prop :=
  (r.users.map User.id).Nodup ∧ r.users ≠ [] ∧ r.hostId ∈ r.users.map User.id

/-- Registry-wide invariant: every stored room is well-formed. -/
def RegistryInv (st : ServerState) : Prop :=
  ∀ c r, lookupA st.rooms c = some r → RoomWF r

/-- Fold a list of `(payload, uuid, now)` message posts into a room. -/
def postAll (r : Room) (ps : List (MessagePayload × String × Int)) : Room :=
  ps.foldl (fun acc p => (acc.addMessage p.1 p.2.1 p.2.2).1) r

/-- The stored message a `(payload, uuid, now)` post produces. -/
def wrap3 (x : MessagePayload × String × Int) : ChatMessage :=
  wrapMessage x.1 x.2.1 x.2.2

/-- A room fixture with a chosen playback clock and current track. -/
def mkClockRoom (isPlaying : Bool) (pos ts : Int) (trackId : Option String)
    (tr : Option Track) : Room :=
  { newRoom "ROOM01" "host" "Host" 0 with
    playbackState := { isPlaying := isPlaying, position := pos
                       timestamp := ts, trackId := trackId }
    currentTrack := tr
    isPlaying := isPlaying
    position := pos }

/-- A 240-second track used in concrete checks. -/
def trackX : Track := { id := "x", duration := 240000 }

/-- 101 concrete message posts. -/
def ps101 : List (MessagePayload × String × Int) :=
  (List.range 101).map (fun i =>
    ({ userId := "u", userName := "n", message := toString i, type := "text" },
     (toString i, (i : Int))))

/-- A fresh room with no messages. -/
def emptyMsgRoom : Room := newRoom "MSGRM1" "h" "H" 0

/-- The state after socket `s1` creates room `ABC123`. -/
def st1 : ServerState := (handleCreateRoom initialState "s1" "alice" "ABC123" 0).1

/-- The state after the already-bound socket `s1` then creates `BBBBBB`. -/
def st2 : ServerState := (handleCreateRoom st1 "s1" "alice" "BBBBBB" 1).1

/-- The room stored under `ABC123` in `st1`. -/
def room1 : Room := (newRoom "ABC123" "s1" "alice" 0).addUser "s1" "alice" 0

/-- Members A, B, C who joined at times 0, 1, 2. -/
def userA : User :=
  { id := "A", name := "a", socketId := "A", joinedAt := 0, isOnline := true, lastSeen := 0 }

/-- Member B (joined second). -/
def userB : User :=
  { id := "B", name := "b", socketId := "B", joinedAt := 1, isOnline := true, lastSeen := 1 }

/-- Member C (joined third). -/
def userC : User :=
  { id := "C", name := "c", socketId := "C", joinedAt := 2, isOnline := true, lastSeen := 2 }

/-- A room whose members joined in order A, B, C with A as host. -/
def roomABC : Room := { newRoom "MUSIC1" "A" "a" 0 with users := [userA, userB, userC] }

/-- A's binding for `roomABC`. -/
def bindingA : Binding :=
  { userId := "A", userName := "a", roomId := "MUSIC1", joinedAt := 0, lastPing := 0 }

/-- Server state holding `roomABC` with A bound. -/
def stABC : ServerState :=
  { rooms := [("MUSIC1", roomABC)], userSessions := [("A", bindingA)] }

/-- The pre-existing session stored under code `ABC123` in the collision
fixture. -/
def oldRoomC5 : Room := (newRoom "ABC123" "old1" "old" 0).addUser "old1" "old" 0

/-- Registry already holding a session under `ABC123`. -/
def stC5 : ServerState :=
  { rooms := [("ABC123", oldRoomC5)]
    userSessions := [("old1", { userId := "old1", userName := "old", roomId := "ABC123",
                                joinedAt := 0, lastPing := 0 })] }

/-- A room with host `h1` and a non-host member `s2`, both bound. -/
def roomC9 : Room :=
  ((newRoom "RRRRRR" "h1" "Hank" 0).addUser "h1" "Hank" 0).addUser "s2" "Sue" 1

/-- Server state for the authorization fixtures. -/
def stC9 : ServerState :=
  { rooms := [("RRRRRR", roomC9)]
    userSessions :=
      [("h1", { userId := "h1", userName := "Hank", roomId := "RRRRRR",
                joinedAt := 0, lastPing := 0 }),
       ("s2", { userId := "s2", userName := "Sue", roomId := "RRRRRR",
                joinedAt := 1, lastPing := 1 })] }


/-- Playing clock captured at t=0, position 10000, on track `x`. -/
def roomC1 : Room := mkClockRoom true 10000 0 (some "x") (some trackX)

/-- A room playing at position 5000 of track `old` since t=100. -/
def roomC2 : Room :=
  mkClockRoom true 5000 100 (some "old") (some { id := "old", duration := 100000 })

/-- `roomC2` after the host switches to track `new` at t=200. -/
def roomC2t : Room := roomC2.updateTrack (some { id := "new", duration := 200000 }) 200

/-- Playing clock captured at t=5000, queried at the earlier instant 3000. -/
def roomC7 : Room := mkClockRoom true 10000 5000 (some "x") (some trackX)

/-! ## Helper lemmas -/

theorem lookupA_setA (m : List (String × α)) (k k' : String) (v : α) :
    lookupA (setA m k v) k' = if k' = k then some v else lookupA m k' := by
  induction m with
  | nil =>
    by_cases h : k' = k
    · subst h
      simp [setA, lookupA]
    · have h2 : ¬ k = k' := fun hh => h hh.symm
      simp [setA, lookupA, h, h2]
  | cons p rest ih =>
    by_cases hp : p.1 = k
    · by_cases h : k' = k
      · subst h
        simp [setA, lookupA, hp]
      · have h2 : ¬ k = k' := fun hh => h hh.symm
        have h3 : ¬ p.1 = k' := fun hh => h2 (hp.symm.trans hh)
        simp [setA, lookupA, hp, h, h2, h3]
    · by_cases h : k' = k
      · subst h
        simp [setA, lookupA, hp, ih]
      · by_cases hq : p.1 = k'
        · simp [setA, lookupA, hp, hq, h]
        · simp [setA, lookupA, hp, hq, h, ih]

theorem lookupA_delA (m : List (String × α)) (k k' : String) :
    lookupA (delA m k) k' = if k' = k then none else lookupA m k' := by
  induction m with
  | nil =>
    by_cases h : k' = k <;> simp [delA, lookupA, h]
  | cons p rest ih =>
    by_cases hp : p.1 = k
    · by_cases h : k' = k
      · subst h
        simp [delA, lookupA, hp, ih]
      · have h2 : ¬ k = k' := fun hh => h hh.symm
        have h3 : ¬ p.1 = k' := fun hh => h ((hp.symm.trans hh).symm)
        simp [delA, lookupA, hp, h, h2, h3, ih]
    · by_cases h : k' = k
      · subst h
        simp [delA, lookupA, hp, ih]
      · by_cases hq : p.1 = k'
        · simp [delA, lookupA, hp, hq, h]
        · simp [delA, lookupA, hp, hq, h, ih]

theorem setUser_ids (l : List User) (u : User) :
    (setUser l u).map User.id =
      if u.id ∈ l.map User.id then l.map User.id else l.map User.id ++ [u.id] := by
  induction l with
  | nil => simp [setUser]
  | cons v rest ih =>
    by_cases h : v.id = u.id
    · simp [setUser, h]
    · have h2 : ¬ u.id = v.id := fun hh => h hh.symm
      by_cases hm : u.id ∈ rest.map User.id
      · simp [setUser, h, ih, hm, h2]
      · simp [setUser, h, ih, hm, h2]

theorem setUser_ne_nil (l : List User) (u : User) : setUser l u ≠ [] := by
  cases l with
  | nil => simp [setUser]
  | cons v rest =>
    by_cases h : v.id = u.id <;> simp [setUser, h]

theorem mem_setUser_ids (l : List User) (u : User) :
    u.id ∈ (setUser l u).map User.id := by
  rw [setUser_ids]
  by_cases h : u.id ∈ l.map User.id <;> simp [h]

theorem filter_map_comm (l : List User) (p : String → Bool) :
    (l.filter (fun x => p x.id)).map User.id = (l.map User.id).filter p := by
  induction l with
  | nil => rfl
  | cons x xs ih =>
    by_cases h : p x.id <;> simp [h, ih]

theorem lastN_length_le (n : Nat) (l : List α) : (lastN n l).length ≤ n := by
  simp [lastN]
  omega

theorem lastN_of_le {n : Nat} {l : List α} (h : l.length ≤ n) : lastN n l = l := by
  simp [lastN, Nat.sub_eq_zero_of_le h]

theorem lastN_append_lastN (n : Nat) (xs ys : List α) :
    lastN n (lastN n xs ++ ys) = lastN n (xs ++ ys) := by
  simp only [lastN]
  by_cases h : xs.length ≤ n
  · have h0 : xs.length - n = 0 := Nat.sub_eq_zero_of_le h
    simp [h0]
  · have hd : xs.length - n ≤ xs.length := Nat.sub_le _ _
    have hlen : (xs.drop (xs.length - n)).length = n := by
      simp
      omega
    have hidx : (xs.drop (xs.length - n) ++ ys).length - n = ys.length := by
      rw [List.length_append, hlen]
      omega
    rw [hidx, ← List.drop_append_of_le_length hd, List.drop_drop]
    congr 1
    rw [List.length_append]
    omega

theorem addMessage_messages (r : Room) (p : MessagePayload) (id : String) (now : Int)
    (h : r.messages.length ≤ 100) :
    ((r.addMessage p id now).1).messages =
      lastN 100 (r.messages ++ [wrapMessage p id now]) := by
  show (if (r.messages ++ [wrapMessage p id now]).length > 100 then
          lastN 100 (r.messages ++ [wrapMessage p id now])
        else r.messages ++ [wrapMessage p id now]) =
      lastN 100 (r.messages ++ [wrapMessage p id now])
  by_cases hlen : (r.messages ++ [wrapMessage p id now]).length > 100
  · rw [if_pos hlen]
  · rw [if_neg hlen, lastN_of_le (by omega)]

theorem addMessage_length_le (r : Room) (p : MessagePayload) (id : String) (now : Int)
    (h : r.messages.length ≤ 100) :
    ((r.addMessage p id now).1).messages.length ≤ 100 := by
  rw [addMessage_messages r p id now h]
  exact lastN_length_le _ _

theorem postAll_messages (ps : List (MessagePayload × String × Int)) (r : Room)
    (h : r.messages.length ≤ 100) :
    (postAll r ps).messages = lastN 100 (r.messages ++ ps.map wrap3) := by
  induction ps generalizing r with
  | nil =>
    simp [postAll, lastN_of_le h]
  | cons p ps ih =>
    have hstep : postAll r (p :: ps) = postAll ((r.addMessage p.1 p.2.1 p.2.2).1) ps := rfl
    rw [hstep, ih _ (addMessage_length_le r p.1 p.2.1 p.2.2 h),
        addMessage_messages r p.1 p.2.1 p.2.2 h, lastN_append_lastN]
    simp [wrap3]

theorem addMessage_getLast (r : Room) (p : MessagePayload) (id : String) (now : Int) :
    ((r.addMessage p id now).1).messages.getLast? = some (wrapMessage p id now) := by
  show (if (r.messages ++ [wrapMessage p id now]).length > 100 then
          lastN 100 (r.messages ++ [wrapMessage p id now])
        else r.messages ++ [wrapMessage p id now]).getLast? =
      some (wrapMessage p id now)
  by_cases hlen : (r.messages ++ [wrapMessage p id now]).length > 100
  · have hk : (r.messages ++ [wrapMessage p id now]).length - 100 ≤ r.messages.length := by
      simp only [List.length_append, List.length_singleton]
      omega
    rw [if_pos hlen]
    unfold lastN
    rw [List.drop_append_of_le_length hk]
    exact List.getLast?_concat _
  · rw [if_neg hlen]
    exact List.getLast?_concat _

theorem RoomWF_addUser (r : Room) (uid name : String) (now : Int) (h : RoomWF r) :
    RoomWF (r.addUser uid name now) := by
  obtain ⟨hn, hne, hh⟩ := h
  refine ⟨?_, ?_, ?_⟩
  · show (setUser r.users _).map User.id |>.Nodup
    rw [setUser_ids]
    by_cases hm : uid ∈ r.users.map User.id
    · simpa [hm] using hn
    · simp only [hm, if_false]
      simp [List.Nodup, List.pairwise_append]
      refine ⟨hn, fun a ha hha => hm ?_⟩
      exact hha ▸ List.mem_map_of_mem User.id ha
  · exact setUser_ne_nil _ _
  · show r.hostId ∈ (setUser r.users _).map User.id
    rw [setUser_ids]
    by_cases hm : uid ∈ r.users.map User.id
    · simpa [hm] using hh
    · simp only [hm, if_false]
      exact List.mem_append_left _ hh

theorem RoomWF_created (code sid userName : String) (now : Int) :
    RoomWF ((newRoom code sid userName now).addUser sid userName now) := by
  refine ⟨?_, ?_, ?_⟩ <;> simp [newRoom, Room.addUser, setUser, RoomWF]

theorem users_setUserTyping (r : Room) (uid : String) (b : Bool) :
    (r.setUserTyping uid b).users = r.users := rfl

theorem hostId_setUserTyping (r : Room) (uid : String) (b : Bool) :
    (r.setUserTyping uid b).hostId = r.hostId := rfl

theorem RoomWF_setUserTyping (r : Room) (uid : String) (b : Bool) (h : RoomWF r) :
    RoomWF (r.setUserTyping uid b) := h

theorem RoomWF_addMessage (r : Room) (p : MessagePayload) (id : String) (now : Int)
    (h : RoomWF r) : RoomWF ((r.addMessage p id now).1) := h

theorem RoomWF_updateTrack (r : Room) (t : Option Track) (now : Int) (h : RoomWF r) :
    RoomWF (r.updateTrack t now) := h

theorem RoomWF_updatePlaybackState (r : Room) (b : Bool) (pos now : Int) (h : RoomWF r) :
    RoomWF (r.updatePlaybackState b pos now) := h

theorem removeUser_ids (r : Room) (sid : String) :
    (r.removeUser sid).users.map User.id =
      (r.users.map User.id).filter (fun x => ¬ x = sid) := by
  show (r.users.filter (fun u => ¬ u.id = sid)).map User.id = _
  exact filter_map_comm r.users (fun x => ¬ x = sid)

theorem RoomWF_removeUser_nonhost (r : Room) (sid : String) (h : RoomWF r)
    (hhost : ¬ r.hostId = sid) (hne : (r.removeUser sid).users ≠ []) :
    RoomWF (r.removeUser sid) := by
  obtain ⟨hn, _, hh⟩ := h
  refine ⟨?_, hne, ?_⟩
  · rw [removeUser_ids]
    exact hn.filter _
  · rw [removeUser_ids]
    rw [List.mem_filter]
    exact ⟨hh, by simpa using hhost⟩

theorem registryInv_setA (st : ServerState) (h : RegistryInv st) (c : String) (r : Room)
    (hr : RoomWF r) (us : List (String × Binding)) :
    RegistryInv { rooms := setA st.rooms c r, userSessions := us } := by
  intro c' r' hl
  rw [lookupA_setA] at hl
  by_cases hc : c' = c
  · rw [if_pos hc] at hl
    cases hl
    exact hr
  · rw [if_neg hc] at hl
    exact h c' r' hl

theorem registryInv_delA (st : ServerState) (h : RegistryInv st) (c : String)
    (us : List (String × Binding)) :
    RegistryInv { rooms := delA st.rooms c, userSessions := us } := by
  intro c' r' hl
  rw [lookupA_delA] at hl
  by_cases hc : c' = c
  · rw [if_pos hc] at hl
    cases hl
  · rw [if_neg hc] at hl
    exact h c' r' hl

theorem registryInv_create (st : ServerState) (sid n code : String) (now : Int)
    (h : RegistryInv st) : RegistryInv (handleCreateRoom st sid n code now).1 := by
  unfold handleCreateRoom
  by_cases hv : ¬ validateRoomData n = true
  · rw [if_pos hv]
    exact h
  · rw [if_neg hv]
    exact registryInv_setA st h code _
      (RoomWF_created code sid (sanitizeString n) now) _

theorem registryInv_join (st : ServerState) (sid n code : String) (now : Int)
    (h : RegistryInv st) : RegistryInv (handleJoinRoom st sid n code now).1 := by
  unfold handleJoinRoom
  by_cases hv : ¬ validateJoinData code n = true
  · rw [if_pos hv]
    exact h
  · rw [if_neg hv]
    dsimp only
    cases hlook : lookupA st.rooms (jsToUpper code) with
    | none => exact h
    | some room =>
      dsimp only
      by_cases hsz : room.users.length ≥ 10
      · rw [if_pos hsz]
        exact h
      · rw [if_neg hsz]
        exact registryInv_setA st h _ _
          (RoomWF_addUser room sid (sanitizeString n) now (h _ _ hlook)) _

theorem registryInv_message (st : ServerState) (sid msg ty mid : String) (now : Int)
    (h : RegistryInv st) : RegistryInv (handleSendMessage st sid msg ty mid now).1 := by
  unfold handleSendMessage
  by_cases hv : ¬ validateMessage msg = true
  · rw [if_pos hv]
    exact h
  · rw [if_neg hv]
    cases hb : lookupA st.userSessions sid with
    | none => exact h
    | some session =>
      dsimp only
      cases hr : lookupA st.rooms session.roomId with
      | none => exact h
      | some room =>
        dsimp only
        cases hu : room.users.find? (fun u => u.id = sid) with
        | none => exact h
        | some user =>
          exact registryInv_setA st h _ _
            (RoomWF_addMessage _ _ _ _ (RoomWF_setUserTyping _ _ _ (h _ _ hr))) _

theorem registryInv_typing (st : ServerState) (sid : String) (b : Bool)
    (h : RegistryInv st) : RegistryInv (handleTyping st sid b).1 := by
  unfold handleTyping
  cases hb : lookupA st.userSessions sid with
  | none => exact h
  | some session =>
    dsimp only
    cases hr : lookupA st.rooms session.roomId with
    | none => exact h
    | some room =>
      exact registryInv_setA st h _ _ (RoomWF_setUserTyping _ _ _ (h _ _ hr)) _

theorem registryInv_track (st : ServerState) (sid : String) (track : Option Track)
    (now : Int) (h : RegistryInv st) : RegistryInv (handleTrackUpdate st sid track now).1 := by
  unfold handleTrackUpdate
  cases hb : lookupA st.userSessions sid with
  | none => exact h
  | some session =>
    dsimp only
    cases hr : lookupA st.rooms session.roomId with
    | none => exact h
    | some room =>
      dsimp only
      by_cases hhost : ¬ room.hostId = sid
      · rw [if_pos hhost]
        exact h
      · rw [if_neg hhost]
        exact registryInv_setA st h _ _ (RoomWF_updateTrack _ _ _ (h _ _ hr)) _

theorem registryInv_playback (st : ServerState) (sid : String) (isPlaying : Bool)
    (position now : Int) (h : RegistryInv st) :
    RegistryInv (handlePlaybackState st sid isPlaying position now).1 := by
  unfold handlePlaybackState
  cases hb : lookupA st.userSessions sid with
  | none => exact h
  | some session =>
    dsimp only
    cases hr : lookupA st.rooms session.roomId with
    | none => exact h
    | some room =>
      dsimp only
      by_cases hhost : ¬ room.hostId = sid
      · rw [if_pos hhost]
        exact h
      · rw [if_neg hhost]
        exact registryInv_setA st h _ _ (RoomWF_updatePlaybackState _ _ _ _ (h _ _ hr)) _

theorem handleRequestSync_state (st : ServerState) (sid : String) :
    (handleRequestSync st sid).1 = st := by
  unfold handleRequestSync
  cases hb : lookupA st.userSessions sid with
  | none => rfl
  | some session =>
    dsimp only
    cases hr : lookupA st.rooms session.roomId with
    | none => rfl
    | some room => rfl

theorem registryInv_disconnect (st : ServerState) (sid : String)
    (h : RegistryInv st) : RegistryInv (handleDisconnect st sid).1 := by
  unfold handleDisconnect
  cases hb : lookupA st.userSessions sid with
  | none => exact h
  | some session =>
    dsimp only
    cases hr : lookupA st.rooms session.roomId with
    | none => exact fun c r hl => h c r hl
    | some room =>
      dsimp only
      by_cases hz : (room.removeUser sid).users.length = 0
      · rw [if_pos hz]
        exact registryInv_delA st h session.roomId _
      · rw [if_neg hz]
        by_cases hhost : (room.removeUser sid).hostId = sid
        · rw [if_pos hhost]
          cases hhead : (room.removeUser sid).users.head? with
          | none => exact fun c r hl => h c r hl
          | some newHost =>
            refine registryInv_setA st h _ _ ?_ _
            obtain ⟨hn, hne, hh⟩ := h _ _ hr
            have hmem : newHost ∈ (room.removeUser sid).users := by
              cases hus : (room.removeUser sid).users with
              | nil => rw [hus] at hhead; cases hhead
              | cons a t =>
                rw [hus] at hhead
                cases hhead
                exact List.mem_cons_self _ _
            refine ⟨?_, ?_, ?_⟩
            · show ((room.removeUser sid).users.map User.id).Nodup
              rw [removeUser_ids]
              exact hn.filter _
            · intro hnil
              have hnil2 : (room.removeUser sid).users = [] := hnil
              exact hz (by rw [hnil2]; rfl)
            · show newHost.id ∈ (room.removeUser sid).users.map User.id
              exact List.mem_map_of_mem User.id hmem
        · rw [if_neg hhost]
          refine registryInv_setA st h _ _ ?_ _
          exact RoomWF_removeUser_nonhost room sid (h _ _ hr) hhost
            (fun hnil => hz (by rw [hnil]; rfl))

theorem registryInv_reachable (st : ServerState) (h : Reachable st) : RegistryInv st := by
  induction h with
  | init => intro c r hl; cases hl
  | create st sid n code now _ ih => exact registryInv_create st sid n code now ih
  | join st sid n code now _ ih => exact registryInv_join st sid n code now ih
  | message st sid msg ty mid now _ ih => exact registryInv_message st sid msg ty mid now ih
  | typing st sid b _ ih => exact registryInv_typing st sid b ih
  | track st sid track now _ ih => exact registryInv_track st sid track now ih
  | playback st sid isPlaying position now _ ih =>
      exact registryInv_playback st sid isPlaying position now ih
  | sync st sid _ ih => rw [handleRequestSync_state]; exact ih
  | disconnect st sid _ ih => exact registryInv_disconnect st sid ih

/-! ## Claim theorems -/

/-- Claim C1: for every playback clock snapshot and every instant `now` at or
after the snapshot's timestamp, the live-position derivation
(`Room.getPlaybackSync`) returns the stored position unchanged when
`isPlaying` is false or no track is loaded, and returns
`min(position + (now - timestamp), trackDuration)` when `isPlaying` is true
and a track is loaded. -/
theorem c1_live_position_derivation (r : Room) (now : Int)
    (h : r.playbackState.timestamp ≤ now) :
    ((r.playbackState.isPlaying = false ∨ r.currentTrack = none) →
      (r.getPlaybackSync now).calculatedPosition = r.playbackState.position) ∧
    (∀ t : Track, r.playbackState.isPlaying = true → r.currentTrack = some t →
      (r.getPlaybackSync now).calculatedPosition =
        min (r.playbackState.position + (now - r.playbackState.timestamp)) t.duration) := by
  constructor
  · rintro (hp | ht)
    · cases htr : r.currentTrack with
      | none => simp [Room.getPlaybackSync, htr]
      | some t => simp [Room.getPlaybackSync, htr, hp]
    · simp [Room.getPlaybackSync, ht]
  · intro t hp htr
    simp [Room.getPlaybackSync, htr, hp]

/-- Witness for C1: a clock playing from position 10000 captured at t=0 on a
240000 ms track, queried at t=5000, yields effective position 15000. -/
theorem c1_witness :
    (roomC1.playbackState.timestamp ≤ 5000) ∧
    (roomC1.getPlaybackSync 5000).calculatedPosition = 15000 := by
  refine ⟨by decide, ?_⟩
  have h := (c1_live_position_derivation roomC1 5000 (by decide)).2 trackX rfl rfl
  exact h.trans (by decide)

/-- Claim C2 counterexample: `updateTrack` does not reset the playback clock
to paused at position 0 — a clock playing at position 5000 keeps
`isPlaying = true` and `position = 5000` after a track change; only the
track id and timestamp are replaced. -/
theorem c2_counterexample :
    ¬ (roomC2t.playbackState.isPlaying = false ∧ roomC2t.playbackState.position = 0) ∧
    roomC2t.playbackState =
      { isPlaying := true, position := 5000, timestamp := 200, trackId := some "new" } := by
  decide

/-- Claim C2 (amended): a successful host track change replaces the current
track and sets the clock's `trackId` to the new track's id (`null` for a
falsy id) and its `timestamp` to now, while leaving `isPlaying` and
`position` unchanged from the prior clock state. -/
theorem c2_track_change_clock (r : Room) (track : Track) (now : Int) :
    (r.updateTrack (some track) now).currentTrack = some track ∧
    (r.updateTrack (some track) now).playbackState.isPlaying = r.playbackState.isPlaying ∧
    (r.updateTrack (some track) now).playbackState.position = r.playbackState.position ∧
    (r.updateTrack (some track) now).playbackState.timestamp = now ∧
    (r.updateTrack (some track) now).playbackState.trackId = jsTrackIdOpt (some track) ∧
    (r.updateTrack (some track) now).lastUpdateTime = now :=
  ⟨rfl, rfl, rfl, rfl, rfl, rfl⟩

/-- Claim C7 counterexample: with a playing clock captured at t=5000 and a
caller instant 3000 earlier than the snapshot timestamp, the derivation
returns 8000, strictly less than the stored position 10000 — negative
elapsed time is not clamped to 0. -/
theorem c7_counterexample :
    (roomC7.getPlaybackSync 3000).calculatedPosition = 8000 ∧
    (roomC7.getPlaybackSync 3000).calculatedPosition < roomC7.playbackState.position := by
  decide

/-- Claim C7 (amended): the live-position derivation applies the signed
elapsed time `now - timestamp` with no lower clamp; whenever the caller
instant is earlier than the snapshot timestamp (and the clock is playing
with a loaded track whose duration is not exceeded), the returned position
is strictly less than the stored position rather than equal to it. -/
theorem c7_negative_elapsed (r : Room) (t : Track) (now : Int)
    (htr : r.currentTrack = some t) (hp : r.playbackState.isPlaying = true)
    (hnow : now < r.playbackState.timestamp)
    (hdur : r.playbackState.position + (now - r.playbackState.timestamp) ≤ t.duration) :
    (r.getPlaybackSync now).calculatedPosition =
      r.playbackState.position + (now - r.playbackState.timestamp) ∧
    (r.getPlaybackSync now).calculatedPosition < r.playbackState.position := by
  have heq : (r.getPlaybackSync now).calculatedPosition =
      r.playbackState.position + (now - r.playbackState.timestamp) := by
    simp [Room.getPlaybackSync, htr, hp, min_eq_left hdur]
  exact ⟨heq, by rw [heq]; omega⟩

/-- Witness for C7's amended theorem at the concrete counterexample clock. -/
theorem c7_witness :
    (roomC7.getPlaybackSync 3000).calculatedPosition =
      roomC7.playbackState.position + (3000 - roomC7.playbackState.timestamp) :=
  (c7_negative_elapsed roomC7 trackX 3000 rfl rfl (by decide) (by decide)).1

/-- Claim C8: starting from a session with no messages, after any sequence of
posted messages the session retains exactly the most recent 100 posts in
insertion order (posting 101 leaves the latest 100, oldest evicted first),
the full-state snapshot exposes the most recent 50 of those, and every post
is accepted — the newly posted message is always the last retained one. -/
theorem c8_message_retention (r : Room) (ps : List (MessagePayload × String × Int))
    (h : r.messages = []) :
    (postAll r ps).messages = lastN 100 (ps.map wrap3) ∧
    (postAll r ps).messages.length ≤ 100 ∧
    (ps.length = 101 → (postAll r ps).messages = (ps.map wrap3).drop 1) ∧
    ((postAll r ps).getCurrentState).messages = lastN 50 ((postAll r ps).messages) ∧
    ((postAll r ps).getCurrentState).messages.length ≤ 50 ∧
    (∀ (r2 : Room) (p : MessagePayload) (id : String) (now : Int),
      ((r2.addMessage p id now).1).messages.getLast? = some (wrapMessage p id now)) := by
  have h0 : r.messages.length ≤ 100 := by rw [h]; simp
  have hm : (postAll r ps).messages = lastN 100 (ps.map wrap3) := by
    rw [postAll_messages ps r h0, h]
    rfl
  refine ⟨hm, ?_, ?_, rfl, ?_, fun r2 p id now => addMessage_getLast r2 p id now⟩
  · rw [hm]
    exact lastN_length_le _ _
  · intro h101
    rw [hm]
    unfold lastN
    congr 1
    simp [h101]
  · show (lastN 50 ((postAll r ps).messages)).length ≤ 50
    exact lastN_length_le _ _

/-- Witness for C8: posting the 101 concrete messages `ps101` to a fresh room
leaves exactly the last 100 of them, in order. -/
theorem c8_witness :
    emptyMsgRoom.messages = [] ∧ ps101.length = 101 ∧
    (postAll emptyMsgRoom ps101).messages = (ps101.map wrap3).drop 1 ∧
    (postAll emptyMsgRoom ps101).messages.length = 100 := by
  refine ⟨rfl, by decide, (c8_message_retention emptyMsgRoom ps101 rfl).2.2.1 (by decide), ?_⟩
  decide

/-- Claim C3: when the member holding host authority is removed (disconnect)
from a session whose remaining membership is non-empty, host authority
transfers to the earliest-joined remaining member — the head of the
join-ordered membership list, whose join time is minimal among the
remaining members (join times are strictly increasing along join order, so
join order is unique per member). -/
theorem c3_host_failover (st : ServerState) (sid : String) (b : Binding) (room : Room)
    (hb : lookupA st.userSessions sid = some b)
    (hr : lookupA st.rooms b.roomId = some room)
    (hhost : room.hostId = sid)
    (hsorted : room.users.Pairwise (fun u v => u.joinedAt < v.joinedAt))
    (hne : room.users.filter (fun u => ¬ u.id = sid) ≠ []) :
    ∃ (room2 : Room) (u : User),
      lookupA (handleDisconnect st sid).1.rooms b.roomId = some room2 ∧
      (room.users.filter (fun u => ¬ u.id = sid)).head? = some u ∧
      room2.hostId = u.id ∧
      ∀ v ∈ room.users.filter (fun u => ¬ u.id = sid), u.joinedAt ≤ v.joinedAt := by
  cases hrem : room.users.filter (fun u => ¬ u.id = sid) with
  | nil => exact absurd hrem hne
  | cons u rest =>
    have husers : (room.removeUser sid).users = u :: rest := by
      show room.users.filter (fun u => ¬ u.id = sid) = u :: rest
      exact hrem
    have hz : ¬ (room.removeUser sid).users.length = 0 := by
      rw [husers]
      simp
    have hh : (room.removeUser sid).hostId = sid := hhost
    have hhead : (room.removeUser sid).users.head? = some u := by
      rw [husers]
      rfl
    unfold handleDisconnect
    rw [hb]
    dsimp only
    rw [hr]
    dsimp only
    rw [if_neg hz, if_pos hh, hhead]
    dsimp only
    refine ⟨({ room.removeUser sid with hostId := u.id, hostName := u.name }), u, ?_, ?_, rfl, ?_⟩
    · rw [lookupA_setA, if_pos rfl]
    · rfl
    · have hsf : (room.users.filter (fun u => ¬ u.id = sid)).Pairwise
          (fun u v => u.joinedAt < v.joinedAt) :=
        List.Pairwise.sublist (List.filter_sublist _) hsorted
      rw [hrem] at hsf
      intro v hv
      cases List.mem_cons.mp hv with
      | inl hveq => rw [hveq]
      | inr hvr => exact le_of_lt ((List.pairwise_cons.mp hsf).1 v hvr)

/-- Witness for C3: with members A (t=0), B (t=1), C (t=2) and A as host,
A's disconnect makes B — the earliest-joined remaining member — the host. -/
theorem c3_witness :
    (∃ (room2 : Room) (u : User),
      lookupA (handleDisconnect stABC "A").1.rooms bindingA.roomId = some room2 ∧
      (roomABC.users.filter (fun u => ¬ u.id = "A")).head? = some u ∧
      room2.hostId = u.id ∧
      ∀ v ∈ roomABC.users.filter (fun u => ¬ u.id = "A"), u.joinedAt ≤ v.joinedAt) ∧
    (lookupA (handleDisconnect stABC "A").1.rooms "MUSIC1").map Room.hostId = some "B" := by
  refine ⟨c3_host_failover stABC "A" bindingA roomABC rfl rfl rfl ?_ ?_, ?_⟩
  · decide
  · decide
  · decide

/-- Claim C4: in every reachable server state, every stored session with at
least one member has exactly one member id equal to its host id, and that
id is a key of the membership map; this is preserved by all handlers
(create, join, message, typing, track, playback, sync, disconnect) since
reachability is closed under them. -/
theorem c4_single_host (st : ServerState) (hreach : Reachable st) (code : String)
    (room : Room) (hlook : lookupA st.rooms code = some room)
    (hmem : 1 ≤ room.users.length) :
    (room.users.map User.id).count room.hostId = 1 ∧
    room.hostId ∈ room.users.map User.id := by
  obtain ⟨hn, _, hh⟩ := registryInv_reachable st hreach code room hlook
  exact ⟨List.count_eq_one_of_mem hn hh, hh⟩

/-- Witness for C4: the state reached by one create-room has a stored session
whose host id occurs exactly once among the member ids. -/
theorem c4_witness :
    lookupA st1.rooms "ABC123" = some room1 ∧
    (room1.users.map User.id).count room1.hostId = 1 := by
  have hreach : Reachable st1 :=
    Reachable.create initialState "s1" "alice" "ABC123" 0 Reachable.init
  have hl : lookupA st1.rooms "ABC123" = some room1 := by decide
  exact ⟨hl, (c4_single_host st1 hreach "ABC123" room1 hl (by decide)).1⟩

/-- Claim C6: a session is destroyed the instant its membership becomes
empty — no reachable registry state stores a session with zero members, and
removing the sole remaining member of a stored session makes the registry
lookup of its code return not-found. -/
theorem c6_empty_session_destruction :
    (∀ st, Reachable st → ∀ c r, lookupA st.rooms c = some r → r.users ≠ []) ∧
    (∀ st (sid : String) (b : Binding) (room : Room),
      lookupA st.userSessions sid = some b →
      lookupA st.rooms b.roomId = some room →
      room.users.map User.id = [sid] →
      lookupA (handleDisconnect st sid).1.rooms b.roomId = none) := by
  constructor
  · intro st h c r hl
    exact (registryInv_reachable st h c r hl).2.1
  · intro st sid b room hb hr hids
    obtain ⟨u, hu, hui⟩ : ∃ u, room.users = [u] ∧ u.id = sid := by
      cases hus : room.users with
      | nil => rw [hus] at hids; cases hids
      | cons x rest =>
        rw [hus] at hids
        simp at hids
        exact ⟨x, by rw [hids.2], hids.1⟩
    have hz : (room.removeUser sid).users.length = 0 := by
      show (room.users.filter (fun v => ¬ v.id = sid)).length = 0
      rw [hu]
      simp [hui]
    unfold handleDisconnect
    rw [hb]
    dsimp only
    rw [hr]
    dsimp only
    rw [if_pos hz]
    dsimp only
    rw [lookupA_delA, if_pos rfl]

/-- Witness for C6: in the one-member session state `st1`, the sole member's
disconnect removes the session — looking up its code afterwards fails, and
the stored session in `st1` indeed had a nonempty membership. -/
theorem c6_witness :
    lookupA (handleDisconnect st1 "s1").1.rooms "ABC123" = none ∧
    room1.users ≠ [] := by
  constructor
  · have hb : lookupA st1.userSessions "s1" =
        some { userId := "s1", userName := "alice", roomId := "ABC123",
               joinedAt := 0, lastPing := 0 } := by decide
    have hr : lookupA st1.rooms "ABC123" = some room1 := by decide
    exact c6_empty_session_destruction.2 st1 "s1" _ room1 hb hr (by decide)
  · have hreach : Reachable st1 :=
      Reachable.create initialState "s1" "alice" "ABC123" 0 Reachable.init
    exact c6_empty_session_destruction.1 st1 hreach "ABC123" room1 (by decide)

/-- Claim C5 counterexample: the create-room handler performs no collision
check — when the generated code `ABC123` already names a stored session,
the new session silently overwrites it: afterwards the code maps to the new
creator's session, the old session is gone, and the registry still has a
single entry. -/
theorem c5_counterexample :
    (lookupA (handleCreateRoom stC5 "s2" "eve" "ABC123" 5).1.rooms "ABC123").map
        Room.hostId = some "s2" ∧
    ¬ lookupA (handleCreateRoom stC5 "s2" "eve" "ABC123" 5).1.rooms "ABC123" =
        some oldRoomC5 ∧
    (handleCreateRoom stC5 "s2" "eve" "ABC123" 5).1.rooms.length = 1 := by
  decide

/-- Claim C5 (amended): session creation stores the new session under the
generated code unconditionally — no collision is detected and no retry
occurs, so a create request whose generated code equals an existing
session's code overwrites that session in the registry. -/
theorem c5_create_overwrites (st : ServerState) (sid userName code : String) (now : Int)
    (hv : validateRoomData userName = true) :
    lookupA (handleCreateRoom st sid userName code now).1.rooms code =
      some ((newRoom code sid (sanitizeString userName) now).addUser sid
        (sanitizeString userName) now) := by
  unfold handleCreateRoom
  rw [if_neg (by simp [hv])]
  dsimp only
  rw [lookupA_setA, if_pos rfl]

/-- Witness for C5's amended theorem: creating over the occupied code
`ABC123` stores the new session there. -/
theorem c5_witness :
    lookupA (handleCreateRoom stC5 "s2" "eve" "ABC123" 5).1.rooms "ABC123" =
      some ((newRoom "ABC123" "s2" (sanitizeString "eve") 5).addUser "s2"
        (sanitizeString "eve") 5) :=
  c5_create_overwrites stC5 "s2" "eve" "ABC123" 5 (by decide)

/-- Claim C9 counterexample: a `track-update` (and a `playback-state`) from a
socket with no connection binding is silently dropped — the handler returns
the state unchanged with an empty emission list, so no typed error event is
reported to the sender, contradicting the claim that every such failure is
reported via `action-error`. -/
theorem c9_counterexample :
    handleTrackUpdate initialState "s1" (some { id := "t", duration := 1000 }) 0 =
      (initialState, []) ∧
    handlePlaybackState initialState "s1" true 0 0 = (initialState, []) := by
  decide

/-- Claim C9 (amended): authorization failures never mutate session state and
are never broadcast; `NotHost` failures on `track-update` / `playback-state`
(including a missing room) and all `send-message` failures (no binding,
missing room, sender not a member) are reported by a single typed error
event to the sender only, while a missing binding on `track-update` or
`playback-state` produces no event at all. -/
theorem c9_auth_failures :
    (∀ st sid track now, lookupA st.userSessions sid = none →
      handleTrackUpdate st sid track now = (st, [])) ∧
    (∀ st sid track now b, lookupA st.userSessions sid = some b →
      lookupA st.rooms b.roomId = none →
      handleTrackUpdate st sid track now = (st, [Emit.toSender "action-error"])) ∧
    (∀ st sid track now b room, lookupA st.userSessions sid = some b →
      lookupA st.rooms b.roomId = some room → ¬ room.hostId = sid →
      handleTrackUpdate st sid track now = (st, [Emit.toSender "action-error"])) ∧
    (∀ st sid isPlaying position now, lookupA st.userSessions sid = none →
      handlePlaybackState st sid isPlaying position now = (st, [])) ∧
    (∀ st sid isPlaying position now b, lookupA st.userSessions sid = some b →
      lookupA st.rooms b.roomId = none →
      handlePlaybackState st sid isPlaying position now =
        (st, [Emit.toSender "action-error"])) ∧
    (∀ st sid isPlaying position now b room, lookupA st.userSessions sid = some b →
      lookupA st.rooms b.roomId = some room → ¬ room.hostId = sid →
      handlePlaybackState st sid isPlaying position now =
        (st, [Emit.toSender "action-error"])) ∧
    (∀ st sid msg ty mid now, validateMessage msg = true →
      lookupA st.userSessions sid = none →
      handleSendMessage st sid msg ty mid now = (st, [Emit.toSender "message-error"])) ∧
    (∀ st sid msg ty mid now b, validateMessage msg = true →
      lookupA st.userSessions sid = some b → lookupA st.rooms b.roomId = none →
      handleSendMessage st sid msg ty mid now = (st, [Emit.toSender "message-error"])) ∧
    (∀ st sid msg ty mid now b room, validateMessage msg = true →
      lookupA st.userSessions sid = some b → lookupA st.rooms b.roomId = some room →
      room.users.find? (fun u => u.id = sid) = none →
      handleSendMessage st sid msg ty mid now = (st, [Emit.toSender "message-error"])) := by
  refine ⟨?_, ?_, ?_, ?_, ?_, ?_, ?_, ?_, ?_⟩
  · intro st sid track now hb
    unfold handleTrackUpdate
    rw [hb]
  · intro st sid track now b hb hr
    unfold handleTrackUpdate
    rw [hb]
    dsimp only
    rw [hr]
  · intro st sid track now b room hb hr hhost
    unfold handleTrackUpdate
    rw [hb]
    dsimp only
    rw [hr]
    dsimp only
    rw [if_pos hhost]
  · intro st sid isPlaying position now hb
    unfold handlePlaybackState
    rw [hb]
  · intro st sid isPlaying position now b hb hr
    unfold handlePlaybackState
    rw [hb]
    dsimp only
    rw [hr]
  · intro st sid isPlaying position now b room hb hr hhost
    unfold handlePlaybackState
    rw [hb]
    dsimp only
    rw [hr]
    dsimp only
    rw [if_pos hhost]
  · intro st sid msg ty mid now hv hb
    unfold handleSendMessage
    rw [if_neg (by simp [hv]), hb]
  · intro st sid msg ty mid now b hv hb hr
    unfold handleSendMessage
    rw [if_neg (by simp [hv]), hb]
    dsimp only
    rw [hr]
  · intro st sid msg ty mid now b room hv hb hr hu
    unfold handleSendMessage
    rw [if_neg (by simp [hv]), hb]
    dsimp only
    rw [hr]
    dsimp only
    rw [hu]

/-- Witness for C9's amended theorem: in the two-member fixture session, a
track update from the non-host member `s2` yields exactly one `action-error`
to the sender and leaves the state unchanged, and a send-message from an
unbound socket yields exactly one `message-error`. -/
theorem c9_witness :
    handleTrackUpdate stC9 "s2" (some { id := "t", duration := 1000 }) 7 =
      (stC9, [Emit.toSender "action-error"]) ∧
    handleSendMessage stC9 "ghost" "hi" "text" "m1" 7 =
      (stC9, [Emit.toSender "message-error"]) := by
  constructor
  · exact c9_auth_failures.2.2.1 stC9 "s2" (some { id := "t", duration := 1000 }) 7
      ({ userId := "s2", userName := "Sue", roomId := "RRRRRR", joinedAt := 1, lastPing := 1 })
      roomC9 (by decide) (by decide) (by decide)
  · exact c9_auth_failures.2.2.2.2.2.2.1 stC9 "ghost" "hi" "text" "m1" 7
      (by decide) (by decide)

/-- Claim C10 counterexample: after socket `s1` creates session `ABC123` and
then, while still bound, creates session `BBBBBB`, the member id `s1` is
simultaneously present in the membership maps of both stored sessions —
the first session is never cleaned up, contradicting the claim. -/
theorem c10_counterexample :
    (lookupA st2.rooms "ABC123").map (fun r => r.users.any (fun u => u.id = "s1")) =
      some true ∧
    (lookupA st2.rooms "BBBBBB").map (fun r => r.users.any (fun u => u.id = "s1")) =
      some true ∧
    (lookupA st2.userSessions "s1").map Binding.roomId = some "BBBBBB" := by
  decide

/-- Claim C10 (amended): when a connection that is already a member of one
session successfully creates or joins another session, only its binding is
replaced — it remains in the first session's membership map, so the same
member id is then a member of two stored sessions at once. -/
theorem c10_stale_membership :
    (∀ st (sid name code : String) (now : Int) (c : String) (r : Room),
      validateRoomData name = true → ¬ c = code →
      lookupA st.rooms c = some r → sid ∈ r.users.map User.id →
      lookupA (handleCreateRoom st sid name code now).1.rooms c = some r ∧
      ∃ r2, lookupA (handleCreateRoom st sid name code now).1.rooms code = some r2 ∧
            sid ∈ r2.users.map User.id) ∧
    (∀ st (sid name codeRaw : String) (now : Int) (c : String) (r room : Room),
      validateJoinData codeRaw name = true → ¬ c = jsToUpper codeRaw →
      lookupA st.rooms (jsToUpper codeRaw) = some room → room.users.length < 10 →
      lookupA st.rooms c = some r → sid ∈ r.users.map User.id →
      lookupA (handleJoinRoom st sid name codeRaw now).1.rooms c = some r ∧
      ∃ r2, lookupA (handleJoinRoom st sid name codeRaw now).1.rooms
              (jsToUpper codeRaw) = some r2 ∧
            sid ∈ r2.users.map User.id) := by
  constructor
  · intro st sid name code now c r hv hc hr hmem
    unfold handleCreateRoom
    rw [if_neg (by simp [hv])]
    dsimp only
    rw [lookupA_setA, lookupA_setA, if_neg hc, if_pos rfl]
    exact ⟨hr, _, rfl, mem_setUser_ids _ _⟩
  · intro st sid name codeRaw now c r room hv hc hlook hcap hr hmem
    unfold handleJoinRoom
    rw [if_neg (by simp [hv])]
    dsimp only
    rw [hlook]
    dsimp only
    rw [if_neg (by omega)]
    dsimp only
    rw [lookupA_setA, lookupA_setA, if_neg hc, if_pos rfl]
    exact ⟨hr, _, rfl, mem_setUser_ids _ _⟩

/-- Witness for C10's amended theorem: applying it to `st1` and the second
create shows `s1` stays a member of `ABC123` while also becoming the sole
member of `BBBBBB`. -/
theorem c10_witness :
    lookupA st2.rooms "ABC123" = some room1 ∧
    (∃ r2, lookupA st2.rooms "BBBBBB" = some r2 ∧ "s1" ∈ r2.users.map User.id) :=
  c10_stale_membership.1 st1 "s1" "alice" "BBBBBB" 1 "ABC123" room1
    (by decide) (by decide) (by decide) (by decide)
